import Mathlib

/-!
Verification of the caddy-logging-redis repository.

Shallow embedding of the two components:

* the resilient reconnecting writer (`RedisWriter` / `RedisConn` in the
  `logging` package): `Provision`, `OpenWriter` and `RedisConn.Write`
  are embedded as pure functions over an explicit connection state, with
  the outcomes of the network effects (connection writes, dials, the host
  replacer and address parser) supplied as oracle inputs;
* the request logger (`RedisLogger` in the `redislogger` package):
  `Provision`'s defaulting of zero-valued fields and `ServeHTTP`'s
  error-propagation structure, with the outcomes of the fallible steps
  (next handler, body read, JSON marshal, LPUSH) supplied as inputs;
  the TLS sub-map construction, which in Go dereferences `r.TLS`
  unconditionally, is embedded over `Option` with the nil dereference
  modelled as a fault.

Times are nanoseconds as in Go's `time.Duration`.
-/

/-- Byte buffers (`[]byte`). -/
abbrev Bytes := List Nat

/-- Error values (`error`); `none` in `Option Err` positions is Go's `nil`. -/
abbrev Err := String

/-- An abstract identifier for a live `net.Conn`. -/
abbrev Conn := Nat

/-- Ten seconds in nanoseconds: the redial cooldown in `RedisConn.Write`. -/
def tenSeconds : Nat := 10000000000

/-- One second in nanoseconds (`time.Second`). -/
def goSecond : Int := 1000000000

/-- The mutable state of a `RedisConn`: the possibly-absent connection and
the timestamp of the last redial attempt (Go's zero `time.Time` is `0`). -/
structure RedisConnState where
  conn : Option Conn
  lastRedial : Nat
deriving Repr, DecidableEq

/-- Oracle for one `RedisConn.Write` call: the wall-clock time and the
outcomes of the network operations the call may perform. A write outcome
`(n, e)` is Go's `(n, err)`; a dial outcome of `none` is a dial error. -/
structure WriteOracle where
  now : Nat
  fastRes : Nat × Option Err
  retryRes : Nat × Option Err
  dialRes : Option Conn
  newRes : Nat × Option Err
deriving Repr, DecidableEq

/-- The observable outcome of one `RedisConn.Write` call: the new state,
the returned `(n, err)`, the chunks written to standard error, the
connections closed, and whether a redial was attempted. -/
structure WriteOutcome where
  state : RedisConnState
  n : Nat
  err : Option Err
  stderrOut : List Bytes
  closed : List Conn
  redialed : Bool
deriving Repr, DecidableEq

/-- The redial section of `RedisConn.Write`: reached when no connection is
usable. If more than ten seconds have passed since `lastRedial`, record the
attempt time, dial, and on success write to the new connection, swapping it
in (and closing the old one) only if that write succeeds; on dial failure,
or when the cooldown has not elapsed, dump the buffer to standard error and
return the current `(n, err)` unchanged. -/
def writeRedial (st : RedisConnState) (b : Bytes) (o : WriteOracle)
    (n0 : Nat) (e0 : Option Err) : WriteOutcome :=
  if st.lastRedial + tenSeconds < o.now then
    let st1 : RedisConnState := { st with lastRedial := o.now }
    match o.dialRes with
    | none => ⟨st1, n0, e0, [b], [], true⟩
    | some conn2 =>
      match o.newRes with
      | (n, none) =>
        match st1.conn with
        | some old => ⟨{ st1 with conn := some conn2 }, n, none, [], [old], true⟩
        | none => ⟨{ st1 with conn := some conn2 }, n, none, [], [], true⟩
      | (n1, some e1) => ⟨st1, n1, some e1, [], [], true⟩
  else
    ⟨st, n0, e0, [b], [], false⟩

/-- The locked section of `RedisConn.Write`: re-check the connection and
retry once; if that write succeeds return it, otherwise fall through to the
redial section carrying the current `(n, err)`. -/
def writeLocked (st : RedisConnState) (b : Bytes) (o : WriteOracle)
    (n0 : Nat) (e0 : Option Err) : WriteOutcome :=
  match st.conn with
  | some _ =>
    match o.retryRes with
    | (n, none) => ⟨st, n, none, [], [], false⟩
    | (n1, some e1) => writeRedial st b o n1 (some e1)
  | none => writeRedial st b o n0 e0

/-- `RedisConn.Write`: fast path under the read lock (direct write on the
current connection, returning immediately on success), then the locked
repair path. The named return values start as `(0, nil)`. -/
def RedisConn.write (st : RedisConnState) (b : Bytes) (o : WriteOracle) : WriteOutcome :=
  match st.conn with
  | some _ =>
    match o.fastRes with
    | (n, none) => ⟨st, n, none, [], [], false⟩
    | (n1, some e1) => writeLocked st b o n1 (some e1)
  | none => writeLocked st b o 0 none

/-- One `Write` call in a trace: the buffer and the oracle for that call. -/
structure WriteCall where
  b : Bytes
  o : WriteOracle
deriving Repr, DecidableEq

/-- The wall-clock times at which a sequence of `Write` calls, run in order
on one writer instance (the repair path is serialized by the exclusive
lock), attempt a redial. -/
def redialTimes (st : RedisConnState) : List WriteCall → List Nat
  | [] => []
  | c :: cs =>
    if (RedisConn.write st c.b c.o).redialed then
      c.o.now :: redialTimes (RedisConn.write st c.b c.o).state cs
    else
      redialTimes (RedisConn.write st c.b c.o).state cs

/-- The outcome of `RedisWriter.OpenWriter`: the initial connection state of
the constructed writer (`none` when construction failed), the returned
error, and whether the dial error was reported on standard error. -/
structure OpenResult where
  writer : Option RedisConnState
  err : Option Err
  stderrReport : Bool
deriving Repr, DecidableEq

/-- `RedisWriter.OpenWriter`: dial once; on failure return the error unless
soft-start is configured, in which case report it on standard error and
construct the writer with no live connection. -/
def RedisWriter.openWriter (softStart : Bool) (dialRes : Except Err Conn) : OpenResult :=
  match dialRes with
  | .ok c => ⟨some ⟨some c, 0⟩, none, false⟩
  | .error e =>
    if softStart then ⟨some ⟨none, 0⟩, none, true⟩
    else ⟨none, some e, false⟩

/-- A parsed `caddy.NetworkAddress` (the fields `Provision` consults). -/
structure NetworkAddress where
  network : String
  host : String
  startPort : Nat
  endPort : Nat
deriving Repr, DecidableEq

/-- `caddy.NetworkAddress.PortRangeSize`. -/
def NetworkAddress.portRangeSize (na : NetworkAddress) : Nat :=
  if na.endPort < na.startPort then 0 else na.endPort - na.startPort + 1

/-- The `RedisWriter` module configuration; `addr` is filled by provisioning. -/
structure RedisWriter where
  Address : String
  DialTimeout : Int
  SoftStart : Bool
  addr : Option NetworkAddress
deriving Repr, DecidableEq

/-- Oracle for `RedisWriter.Provision`: the outcomes of the host framework's
replacer (`repl.ReplaceOrErr`) and address parser
(`caddy.ParseNetworkAddress`) on the configured address. -/
structure ProvisionInput where
  replaceRes : Except Err String
  parseRes : Except Err NetworkAddress

/-- `RedisWriter.Provision`: fail on a replacer error, a parse error, a port
range of size other than one, or a negative dial timeout; otherwise store
the parsed address and leave the configuration unchanged. -/
def RedisWriter.provision (nw : RedisWriter) (inp : ProvisionInput) : Except Err RedisWriter :=
  match inp.replaceRes with
  | .error e => .error ("invalid host in address: " ++ e)
  | .ok _ =>
    match inp.parseRes with
    | .error e => .error ("parsing network address: " ++ e)
    | .ok na =>
      if na.portRangeSize ≠ 1 then .error ("multiple ports not supported")
      else if nw.DialTimeout < 0 then .error ("timeout cannot be less than 0")
      else .ok { nw with addr := some na }

/-- The `RedisLogger` configuration fields that `Provision` defaults.
Durations are nanoseconds (`time.Duration`). -/
structure RedisLoggerCfg where
  RedisAddress : String
  RedisPassword : String
  RedisDB : Int
  RedisKey : String
  WithBody : Bool
  DialTimeout : Int
  ReadTimeout : Int
  WriteTimeout : Int
  MaxRetries : Int
deriving Repr, DecidableEq

/-- The `redis.Options` passed to `redis.NewClient` by `Provision`. -/
structure RedisOptions where
  Addr : String
  Password : String
  DB : Int
  DialTimeout : Int
  ReadTimeout : Int
  WriteTimeout : Int
  MaxRetries : Int
deriving Repr, DecidableEq

/-- The defaulting block of `RedisLogger.Provision`: each zero-valued field
is set to its documented default, in the source's order. -/
def RedisLogger.provisionDefaults (rl : RedisLoggerCfg) : RedisLoggerCfg :=
  let rl1 := if rl.RedisAddress = "" then { rl with RedisAddress := "localhost:6379" } else rl
  let rl2 := if rl1.RedisDB = 0 then { rl1 with RedisDB := 0 } else rl1
  let rl3 := if rl2.DialTimeout = 0 then { rl2 with DialTimeout := 5 * goSecond } else rl2
  let rl4 := if rl3.ReadTimeout = 0 then { rl3 with ReadTimeout := 3 * goSecond } else rl3
  let rl5 := if rl4.WriteTimeout = 0 then { rl4 with WriteTimeout := 3 * goSecond } else rl4
  if rl5.MaxRetries = 0 then { rl5 with MaxRetries := 3 } else rl5

/-- The `redis.Options` literal built by `Provision` after defaulting. -/
def RedisLogger.clientOptions (rl : RedisLoggerCfg) : RedisOptions :=
  ⟨rl.RedisAddress, rl.RedisPassword, rl.RedisDB, rl.DialTimeout,
    rl.ReadTimeout, rl.WriteTimeout, rl.MaxRetries⟩

/-- Oracle for one `RedisLogger.ServeHTTP` call: the outcomes of the next
handler, the request-body read, the JSON marshal, and the LPUSH. -/
structure ServeInputs where
  nextErr : Option Err
  bodyRes : Except Err Bytes
  marshalRes : Except Err String
  lpushErr : Option Err
deriving Repr

/-- The observable outcome of one `ServeHTTP` call: the error returned to
the host, whether the LPUSH was issued, and whether a push failure was
logged locally. -/
structure ServeOutcome where
  ret : Option Err
  pushed : Bool
  loggedPushError : Bool
deriving Repr, DecidableEq

/-- The tail of `ServeHTTP` after the optional body read: marshal the entry
(returning the error on failure), then LPUSH; a push failure is logged and
the handler returns `nil` either way. -/
def serveAfterBody (i : ServeInputs) : ServeOutcome :=
  match i.marshalRes with
  | .error e => ⟨some e, false, false⟩
  | .ok _ =>
    match i.lpushErr with
    | some _ => ⟨none, true, true⟩
    | none => ⟨none, true, false⟩

/-- `RedisLogger.ServeHTTP`: propagate a next-handler error; when body
capture is enabled, read the body and return the error on failure;
otherwise marshal and push. -/
def RedisLogger.serveHTTP (withBody : Bool) (i : ServeInputs) : ServeOutcome :=
  match i.nextErr with
  | some e => ⟨some e, false, false⟩
  | none =>
    if withBody then
      match i.bodyRes with
      | .error e => ⟨some e, false, false⟩
      | .ok _ => serveAfterBody i
    else serveAfterBody i

/-- The TLS connection-state fields read by `ServeHTTP`. -/
structure TLSState where
  didResume : Bool
  version : Nat
  cipherSuite : Nat
  negotiatedProtocol : String
  serverName : String
deriving Repr, DecidableEq

/-- The TLS sub-map of the log entry. -/
structure TLSFields where
  resumed : Bool
  version : Nat
  cipherSuite : Nat
  proto : String
  serverName : String
deriving Repr, DecidableEq

/-- The request fields `ServeHTTP` reads while building the log entry;
`tls` is `none` for a request served without TLS (Go's `r.TLS == nil`). -/
structure Request where
  remoteAddr : String
  urlPort : String
  xForwardedFor : String
  proto : String
  method : String
  host : String
  requestURI : String
  headers : List (String × List String)
  contentLength : Int
  tls : Option TLSState
deriving Repr, DecidableEq

/-- The nested `request` object of the log entry. -/
structure LogEntryRequest where
  remoteIp : String
  remotePort : String
  clientIp : String
  proto : String
  method : String
  host : String
  uri : String
  headers : List (String × List String)
  tls : TLSFields
deriving Repr, DecidableEq

/-- The TLS sub-map construction in `ServeHTTP`: the Go code reads
`r.TLS.DidResume` and the other fields without a nil check, so on a request
without TLS the field access faults (nil-pointer dereference), modelled as
`Except.error`. -/
def buildTLSEntry : Option TLSState → Except Err TLSFields
  | none => .error ("runtime error: invalid memory address or nil pointer dereference")
  | some t => .ok ⟨t.didResume, t.version, t.cipherSuite, t.negotiatedProtocol, t.serverName⟩

/-- Building the nested `request` object of the log entry, faulting exactly
when the TLS sub-map construction faults. -/
def buildRequestEntry (r : Request) : Except Err LogEntryRequest :=
  match buildTLSEntry r.tls with
  | .error e => .error e
  | .ok tf =>
    .ok ⟨r.remoteAddr, r.urlPort, r.xForwardedFor, r.proto, r.method, r.host,
      r.requestURI, r.headers, tf⟩

/-- Modelled from the spec: the storage helper's `compress` function is not
under `src` (only its round-trip test is); the spec states only that the
codec is lossless, so it is modelled as a run-length byte codec. Encodes a
byte sequence as a list of (run length, byte) pairs. -/
def RedisStorage.compress : Bytes → List (Nat × Nat)
  | [] => []
  | x :: xs =>
    match RedisStorage.compress xs with
    | [] => [(1, x)]
    | (c, y) :: rest => if x = y then (c + 1, y) :: rest else (1, x) :: (c, y) :: rest

/-- Modelled from the spec: the storage helper's `uncompress` function, the
inverse direction of the run-length codec. -/
def RedisStorage.uncompress : List (Nat × Nat) → Bytes
  | [] => []
  | (c, y) :: rest => List.replicate c y ++ RedisStorage.uncompress rest

/-- Claim C10: applying the storage helper's compress function and then its
uncompress function yields the original byte sequence exactly. -/
theorem RedisStorage.uncompress_compress (l : Bytes) :
    RedisStorage.uncompress (RedisStorage.compress l) = l := by
  induction l with
  | nil => rfl
  | cons x xs ih =>
    cases h : RedisStorage.compress xs with
    | nil =>
      rw [h] at ih
      simp only [RedisStorage.uncompress] at ih
      simp [RedisStorage.compress, h, RedisStorage.uncompress, ← ih]
    | cons p rest =>
      obtain ⟨c, y⟩ := p
      rw [h] at ih
      simp only [RedisStorage.compress, h]
      by_cases hxy : x = y
      · subst hxy
        rw [if_pos rfl]
        simp only [RedisStorage.uncompress] at ih ⊢
        rw [List.replicate_succ, List.cons_append, ih]
      · rw [if_neg hxy]
        simp only [RedisStorage.uncompress] at ih ⊢
        simp [ih]

/-- Claim C1: a Write while no connection exists and less than ten seconds
have elapsed since the last redial attempt dumps the exact buffer to the
fallback stream and returns without error. -/
theorem RedisConn.write_disconnected_cooldown_diverts (st : RedisConnState) (b : Bytes)
    (o : WriteOracle) (hconn : st.conn = none)
    (hcool : o.now < st.lastRedial + tenSeconds) :
    (RedisConn.write st b o).stderrOut = [b] ∧ (RedisConn.write st b o).err = none := by
  have hnot : ¬ st.lastRedial + tenSeconds < o.now := by omega
  simp [RedisConn.write, writeLocked, writeRedial, hconn, hnot]

/-- Witness for C1 at a concrete disconnected state inside the cooldown. -/
theorem RedisConn.write_disconnected_cooldown_diverts_witness :
    (RedisConn.write ⟨none, 0⟩ [7, 8] ⟨5, (0, none), (0, none), none, (0, none)⟩).stderrOut
        = [[7, 8]] ∧
    (RedisConn.write ⟨none, 0⟩ [7, 8] ⟨5, (0, none), (0, none), none, (0, none)⟩).err = none :=
  RedisConn.write_disconnected_cooldown_diverts ⟨none, 0⟩ [7, 8] _ rfl (by decide)

/-- Claim C8: a Write while a live connection exists whose write succeeds
returns that result immediately, leaves the state unchanged and sends
nothing to the fallback stream. -/
theorem RedisConn.write_fast_path (st : RedisConnState) (b : Bytes) (o : WriteOracle)
    (c : Conn) (n : Nat) (hconn : st.conn = some c) (hok : o.fastRes = (n, none)) :
    RedisConn.write st b o = ⟨st, n, none, [], [], false⟩ := by
  simp [RedisConn.write, hconn, hok]

/-- Witness for C8 at a concrete connected state with a succeeding write. -/
theorem RedisConn.write_fast_path_witness :
    RedisConn.write ⟨some 1, 0⟩ [3, 4] ⟨99, (2, none), (0, none), none, (0, none)⟩
      = ⟨⟨some 1, 0⟩, 2, none, [], [], false⟩ :=
  RedisConn.write_fast_path ⟨some 1, 0⟩ [3, 4] _ 1 2 rfl rfl

/-- Claim C6: when the initial dial fails, OpenWriter without soft-start
returns the dial error and constructs no writer; with soft-start it
succeeds, reports on the fallback stream, and the writer starts with no
live connection, so subsequent writes whose dial fails divert the buffer
to the fallback stream without error. -/
theorem RedisWriter.openWriter_initial_dial_failure (e : Err) (b : Bytes) (o : WriteOracle)
    (hdial : o.dialRes = none) :
    RedisWriter.openWriter false (.error e) = ⟨none, some e, false⟩ ∧
    RedisWriter.openWriter true (.error e) = ⟨some ⟨none, 0⟩, none, true⟩ ∧
    (RedisConn.write ⟨none, 0⟩ b o).stderrOut = [b] ∧
    (RedisConn.write ⟨none, 0⟩ b o).err = none := by
  refine ⟨rfl, rfl, ?_⟩
  by_cases hc : tenSeconds < o.now
  · simp [RedisConn.write, writeLocked, writeRedial, hdial, hc]
  · simp [RedisConn.write, writeLocked, writeRedial, hdial, hc]

/-- Witness for C6 at a concrete dial error and a concrete failing write. -/
theorem RedisWriter.openWriter_initial_dial_failure_witness :
    RedisWriter.openWriter false (.error ("refused")) = ⟨none, some ("refused"), false⟩ ∧
    RedisWriter.openWriter true (.error ("refused")) = ⟨some ⟨none, 0⟩, none, true⟩ ∧
    (RedisConn.write ⟨none, 0⟩ [5] ⟨3, (0, none), (0, none), none, (0, none)⟩).stderrOut = [[5]] ∧
    (RedisConn.write ⟨none, 0⟩ [5] ⟨3, (0, none), (0, none), none, (0, none)⟩).err = none :=
  RedisWriter.openWriter_initial_dial_failure ("refused") [5] _ rfl

/-- Claim C3: in the redial branch with a successful dial, a successful
write to the new connection swaps it in and closes the old connection
exactly once, with nothing diverted; a failed write to the new connection
diverts nothing to the fallback stream and leaves the stored connection
unchanged. -/
theorem RedisConn.write_redial_success (st : RedisConnState) (b : Bytes) (o : WriteOracle)
    (c2 : Conn)
    (hbroken : st.conn = none ∨ ((o.fastRes).2 ≠ none ∧ (o.retryRes).2 ≠ none))
    (hcool : st.lastRedial + tenSeconds < o.now)
    (hdial : o.dialRes = some c2) :
    ((o.newRes).2 = none →
      (RedisConn.write st b o).state.conn = some c2 ∧
      (RedisConn.write st b o).closed = st.conn.toList ∧
      (RedisConn.write st b o).stderrOut = []) ∧
    ((o.newRes).2 ≠ none →
      (RedisConn.write st b o).stderrOut = [] ∧
      (RedisConn.write st b o).state.conn = st.conn) := by
  rcases hf : o.fastRes with ⟨nf, ef⟩
  rcases hr : o.retryRes with ⟨nr, er⟩
  rcases hn : o.newRes with ⟨nn, en⟩
  cases hsc : st.conn with
  | none =>
    cases en with
    | none => simp [RedisConn.write, writeLocked, writeRedial, hsc, hcool, hdial, hn]
    | some e => simp [RedisConn.write, writeLocked, writeRedial, hsc, hcool, hdial, hn]
  | some c =>
    rcases hbroken with h | ⟨h1, h2⟩
    · rw [hsc] at h
      exact absurd h (by simp)
    · rw [hf] at h1
      rw [hr] at h2
      cases ef with
      | none => exact absurd rfl h1
      | some e1 =>
        cases er with
        | none => exact absurd rfl h2
        | some e2 =>
          cases en with
          | none =>
            simp [RedisConn.write, writeLocked, writeRedial, hsc, hf, hr, hcool, hdial, hn]
          | some e =>
            simp [RedisConn.write, writeLocked, writeRedial, hsc, hf, hr, hcool, hdial, hn]

/-- Witness for C3 at a concrete broken connection, elapsed cooldown and
successful redial. -/
theorem RedisConn.write_redial_success_witness :
    ((((⟨tenSeconds + 1, (0, some ("broken")), (0, some ("broken")), some 2, (4, none)⟩ :
          WriteOracle)).newRes).2 = none →
      (RedisConn.write ⟨some 1, 0⟩ [6]
          ⟨tenSeconds + 1, (0, some ("broken")), (0, some ("broken")), some 2, (4, none)⟩).state.conn
          = some 2 ∧
      (RedisConn.write ⟨some 1, 0⟩ [6]
          ⟨tenSeconds + 1, (0, some ("broken")), (0, some ("broken")), some 2, (4, none)⟩).closed
          = (some 1 : Option Conn).toList ∧
      (RedisConn.write ⟨some 1, 0⟩ [6]
          ⟨tenSeconds + 1, (0, some ("broken")), (0, some ("broken")), some 2, (4, none)⟩).stderrOut
          = []) ∧
    ((((⟨tenSeconds + 1, (0, some ("broken")), (0, some ("broken")), some 2, (4, none)⟩ :
          WriteOracle)).newRes).2 ≠ none →
      (RedisConn.write ⟨some 1, 0⟩ [6]
          ⟨tenSeconds + 1, (0, some ("broken")), (0, some ("broken")), some 2, (4, none)⟩).stderrOut
          = [] ∧
      (RedisConn.write ⟨some 1, 0⟩ [6]
          ⟨tenSeconds + 1, (0, some ("broken")), (0, some ("broken")), some 2, (4, none)⟩).state.conn
          = some 1) :=
  RedisConn.write_redial_success ⟨some 1, 0⟩ [6] _ 2
    (Or.inr ⟨by simp, by simp⟩) (by decide) rfl

/-- Helper: the redial section attempts a redial exactly when the cooldown
has elapsed, and records the attempt time in that case. -/
theorem writeRedial_redialed (st : RedisConnState) (b : Bytes) (o : WriteOracle)
    (n0 : Nat) (e0 : Option Err) :
    (writeRedial st b o n0 e0).redialed = decide (st.lastRedial + tenSeconds < o.now) ∧
    (writeRedial st b o n0 e0).state.lastRedial =
      (if st.lastRedial + tenSeconds < o.now then o.now else st.lastRedial) := by
  by_cases hc : st.lastRedial + tenSeconds < o.now
  · rcases hd : o.dialRes with _ | c2
    · simp [writeRedial, hc, hd]
    · rcases hn : o.newRes with ⟨nn, en⟩
      cases en with
      | none =>
        cases hsc : st.conn with
        | none => simp [writeRedial, hc, hd, hn, hsc]
        | some old => simp [writeRedial, hc, hd, hn, hsc]
      | some e1 => simp [writeRedial, hc, hd, hn]
  · simp [writeRedial, hc]

/-- Helper: each Write call either returns on a successful direct write,
leaving the state untouched, or ends in the redial section. -/
theorem write_cases (st : RedisConnState) (b : Bytes) (o : WriteOracle) :
    ((RedisConn.write st b o).redialed = false ∧ (RedisConn.write st b o).state = st) ∨
    ∃ n0 e0, RedisConn.write st b o = writeRedial st b o n0 e0 := by
  cases hsc : st.conn with
  | none => exact Or.inr ⟨0, none, by simp [RedisConn.write, writeLocked, hsc]⟩
  | some c =>
    rcases hf : o.fastRes with ⟨nf, ef⟩
    cases ef with
    | none => exact Or.inl (by simp [RedisConn.write, hsc, hf])
    | some e1 =>
      rcases hr : o.retryRes with ⟨nr, er⟩
      cases er with
      | none => exact Or.inl (by simp [RedisConn.write, writeLocked, hsc, hf, hr])
      | some e2 =>
        exact Or.inr ⟨nr, some e2, by simp [RedisConn.write, writeLocked, hsc, hf, hr]⟩

/-- Helper: a Write that attempts a redial does so only with the cooldown
elapsed, and records the attempt time whatever the dial outcome. -/
theorem write_redialed_now (st : RedisConnState) (b : Bytes) (o : WriteOracle)
    (h : (RedisConn.write st b o).redialed = true) :
    st.lastRedial + tenSeconds < o.now ∧
    (RedisConn.write st b o).state.lastRedial = o.now := by
  rcases write_cases st b o with ⟨hf, _⟩ | ⟨n0, e0, heq⟩
  · rw [hf] at h
    cases h
  · rw [heq] at h ⊢
    have hw := writeRedial_redialed st b o n0 e0
    rw [hw.1] at h
    have hc : st.lastRedial + tenSeconds < o.now := of_decide_eq_true h
    exact ⟨hc, by rw [hw.2, if_pos hc]⟩

/-- Helper: a Write that does not attempt a redial leaves the last-redial
timestamp unchanged. -/
theorem write_not_redialed_lastRedial (st : RedisConnState) (b : Bytes) (o : WriteOracle)
    (h : (RedisConn.write st b o).redialed = false) :
    (RedisConn.write st b o).state.lastRedial = st.lastRedial := by
  rcases write_cases st b o with ⟨_, hst⟩ | ⟨n0, e0, heq⟩
  · rw [hst]
  · rw [heq] at h ⊢
    have hw := writeRedial_redialed st b o n0 e0
    rw [hw.1] at h
    have hc : ¬ st.lastRedial + tenSeconds < o.now := of_decide_eq_false h
    rw [hw.2, if_neg hc]

/-- Helper: every redial time of a trace lies strictly beyond the cooldown
window of the starting state. -/
theorem mem_redialTimes (cs : List WriteCall) :
    ∀ (st : RedisConnState) (t : Nat), t ∈ redialTimes st cs →
      st.lastRedial + tenSeconds < t := by
  induction cs with
  | nil =>
    intro st t h
    simp [redialTimes] at h
  | cons c cs ih =>
    intro st t h
    rw [redialTimes] at h
    by_cases hr : (RedisConn.write st c.b c.o).redialed = true
    · rw [if_pos hr] at h
      have hstep := write_redialed_now st c.b c.o hr
      rcases List.mem_cons.mp h with rfl | hmem
      · exact hstep.1
      · have hrest := ih _ _ hmem
        rw [hstep.2] at hrest
        omega
    · rw [if_neg hr] at h
      have hkeep := write_not_redialed_lastRedial st c.b c.o (by simpa using hr)
      have hrest := ih _ _ h
      rw [hkeep] at hrest
      exact hrest

/-- Helper: the redial times of any trace are pairwise separated by more
than the ten-second cooldown. -/
theorem redialTimes_pairwise (cs : List WriteCall) :
    ∀ st : RedisConnState,
      (redialTimes st cs).Pairwise (fun a c => a + tenSeconds < c) := by
  induction cs with
  | nil =>
    intro st
    simp [redialTimes]
  | cons c cs ih =>
    intro st
    rw [redialTimes]
    by_cases hr : (RedisConn.write st c.b c.o).redialed = true
    · rw [if_pos hr]
      refine List.pairwise_cons.mpr ⟨?_, ih _⟩
      intro t ht
      have hm := mem_redialTimes cs _ t ht
      have hstep := write_redialed_now st c.b c.o hr
      rw [hstep.2] at hm
      exact hm
    · rw [if_neg hr]
      exact ih _

/-- Claim C2: on one writer instance, any two redial attempts are more than
ten seconds apart, a redial is attempted only when more than ten seconds
have passed since the recorded last-redial timestamp, and that timestamp is
set to the attempt time whether or not the dial succeeds. -/
theorem RedisConn.write_redial_throttled (st : RedisConnState) (cs : List WriteCall)
    (b : Bytes) (o : WriteOracle) (h : (RedisConn.write st b o).redialed = true) :
    (redialTimes st cs).Pairwise (fun a c => a + tenSeconds < c) ∧
    st.lastRedial + tenSeconds < o.now ∧
    (RedisConn.write st b o).state.lastRedial = o.now :=
  ⟨redialTimes_pairwise cs st, (write_redialed_now st b o h).1,
    (write_redialed_now st b o h).2⟩

/-- Witness for C2 at a concrete two-call trace whose redials are throttled
and a concrete redialing call. -/
theorem RedisConn.write_redial_throttled_witness :
    (redialTimes ⟨none, 0⟩
        [⟨[1], ⟨tenSeconds + 1, (0, none), (0, none), none, (0, none)⟩⟩,
         ⟨[2], ⟨2 * tenSeconds + 2, (0, none), (0, none), none, (0, none)⟩⟩]).Pairwise
      (fun a c => a + tenSeconds < c) ∧
    (⟨none, 0⟩ : RedisConnState).lastRedial + tenSeconds
        < (⟨tenSeconds + 1, (0, none), (0, none), none, (0, none)⟩ : WriteOracle).now ∧
    (RedisConn.write ⟨none, 0⟩ [9]
        ⟨tenSeconds + 1, (0, none), (0, none), none, (0, none)⟩).state.lastRedial
      = tenSeconds + 1 :=
  RedisConn.write_redial_throttled ⟨none, 0⟩ _ [9] _ (by decide)

/-- Claim C7: provisioning of the resilient writer fails exactly on a
malformed address (replacer or parser error), a port range of more than one
port, or a negative dial timeout, and on success leaves the configuration
otherwise unchanged. The hypothesis records that the host parser only
produces addresses whose port range is non-empty. -/
theorem RedisWriter.provision_error_iff (nw : RedisWriter) (inp : ProvisionInput)
    (hwf : ∀ na, inp.parseRes = .ok na → na.startPort ≤ na.endPort) :
    ((∃ e, nw.provision inp = .error e) ↔
      ((∃ e, inp.replaceRes = .error e) ∨ (∃ e, inp.parseRes = .error e) ∨
        (∃ na, inp.parseRes = .ok na ∧ 1 < na.portRangeSize) ∨ nw.DialTimeout < 0)) ∧
    (∀ nw', nw.provision inp = .ok nw' →
      nw'.Address = nw.Address ∧ nw'.DialTimeout = nw.DialTimeout ∧
        nw'.SoftStart = nw.SoftStart) := by
  rcases hrep : inp.replaceRes with er | s
  · have hred : nw.provision inp = .error ("invalid host in address: " ++ er) := by
      simp [RedisWriter.provision, hrep]
    refine ⟨⟨fun _ => Or.inl ⟨er, rfl⟩, fun _ => ⟨_, hred⟩⟩, ?_⟩
    intro nw' h
    rw [hred] at h
    simp at h
  · rcases hpar : inp.parseRes with ep | na
    · have hred : nw.provision inp = .error ("parsing network address: " ++ ep) := by
        simp [RedisWriter.provision, hrep, hpar]
      refine ⟨⟨fun _ => Or.inr (Or.inl ⟨ep, rfl⟩), fun _ => ⟨_, hred⟩⟩, ?_⟩
      intro nw' h
      rw [hred] at h
      simp at h
    · have hle : na.startPort ≤ na.endPort := hwf na hpar
      have hsize : na.portRangeSize = na.endPort - na.startPort + 1 := by
        unfold NetworkAddress.portRangeSize
        rw [if_neg (by omega)]
      by_cases hone : na.portRangeSize = 1
      · by_cases ht : nw.DialTimeout < 0
        · have hred : nw.provision inp = .error ("timeout cannot be less than 0") := by
            simp [RedisWriter.provision, hrep, hpar, hone, ht]
          refine ⟨⟨fun _ => Or.inr (Or.inr (Or.inr ht)), fun _ => ⟨_, hred⟩⟩, ?_⟩
          intro nw' h
          rw [hred] at h
          simp at h
        · have hred : nw.provision inp = .ok { nw with addr := some na } := by
            simp [RedisWriter.provision, hrep, hpar, hone, ht]
          refine ⟨⟨?_, ?_⟩, ?_⟩
          · rintro ⟨e, he⟩
            rw [hred] at he
            simp at he
          · rintro (⟨e, he⟩ | ⟨e, he⟩ | ⟨na2, hna2, hgt⟩ | hlt)
            · simp at he
            · simp at he
            · injection hna2 with h2
              subst h2
              omega
            · exact absurd hlt ht
          · intro nw' h
            rw [hred] at h
            injection h with h2
            subst h2
            exact ⟨rfl, rfl, rfl⟩
      · have hred : nw.provision inp = .error ("multiple ports not supported") := by
          simp [RedisWriter.provision, hrep, hpar, hone]
        refine ⟨⟨fun _ => Or.inr (Or.inr (Or.inl ⟨na, rfl, by omega⟩)),
          fun _ => ⟨_, hred⟩⟩, ?_⟩
        intro nw' h
        rw [hred] at h
        simp at h

/-- Witness for C7 at a concrete configuration whose address replacement
fails. -/
theorem RedisWriter.provision_error_iff_witness :
    ∃ e, RedisWriter.provision ⟨"$HOST:6379", 0, false, none⟩
        ⟨.error ("env not found"), .error ("not parsed")⟩ = .error e :=
  (RedisWriter.provision_error_iff ⟨"$HOST:6379", 0, false, none⟩
      ⟨.error ("env not found"), .error ("not parsed")⟩
      (by intro na h; simp at h)).1.mpr
    (Or.inl ⟨"env not found", rfl⟩)

set_option maxHeartbeats 1000000 in
/-- Helper: closed form of the logger's provisioning defaults, field by
field. -/
theorem RedisLogger.provisionDefaults_eq (rl : RedisLoggerCfg) :
    RedisLogger.provisionDefaults rl =
      ⟨if rl.RedisAddress = "" then ("localhost:6379") else rl.RedisAddress,
        rl.RedisPassword,
        if rl.RedisDB = 0 then 0 else rl.RedisDB,
        rl.RedisKey, rl.WithBody,
        if rl.DialTimeout = 0 then 5 * goSecond else rl.DialTimeout,
        if rl.ReadTimeout = 0 then 3 * goSecond else rl.ReadTimeout,
        if rl.WriteTimeout = 0 then 3 * goSecond else rl.WriteTimeout,
        if rl.MaxRetries = 0 then 3 else rl.MaxRetries⟩ := by
  obtain ⟨a, p, db, k, wb, dt, rt, wt, mr⟩ := rl
  by_cases h1 : a = "" <;> by_cases h2 : db = 0 <;> by_cases h3 : dt = 0 <;>
    by_cases h4 : rt = 0 <;> by_cases h5 : wt = 0 <;> by_cases h6 : mr = 0 <;>
    simp [RedisLogger.provisionDefaults, h1, h2, h3, h4, h5, h6]

/-- Claim C9: the logger's provisioning fills in the documented default for
every zero-valued field, leaves non-zero fields unchanged, and builds the
client options from the defaulted configuration. -/
theorem RedisLogger.provisionDefaults_spec (rl : RedisLoggerCfg) :
    (RedisLogger.provisionDefaults rl).RedisAddress
        = (if rl.RedisAddress = "" then ("localhost:6379") else rl.RedisAddress) ∧
    (RedisLogger.provisionDefaults rl).RedisDB
        = (if rl.RedisDB = 0 then 0 else rl.RedisDB) ∧
    (RedisLogger.provisionDefaults rl).DialTimeout
        = (if rl.DialTimeout = 0 then 5 * goSecond else rl.DialTimeout) ∧
    (RedisLogger.provisionDefaults rl).ReadTimeout
        = (if rl.ReadTimeout = 0 then 3 * goSecond else rl.ReadTimeout) ∧
    (RedisLogger.provisionDefaults rl).WriteTimeout
        = (if rl.WriteTimeout = 0 then 3 * goSecond else rl.WriteTimeout) ∧
    (RedisLogger.provisionDefaults rl).MaxRetries
        = (if rl.MaxRetries = 0 then 3 else rl.MaxRetries) ∧
    (RedisLogger.provisionDefaults rl).RedisPassword = rl.RedisPassword ∧
    (RedisLogger.provisionDefaults rl).RedisKey = rl.RedisKey ∧
    (RedisLogger.provisionDefaults rl).WithBody = rl.WithBody ∧
    RedisLogger.clientOptions (RedisLogger.provisionDefaults rl) =
      ⟨(RedisLogger.provisionDefaults rl).RedisAddress,
        (RedisLogger.provisionDefaults rl).RedisPassword,
        (RedisLogger.provisionDefaults rl).RedisDB,
        (RedisLogger.provisionDefaults rl).DialTimeout,
        (RedisLogger.provisionDefaults rl).ReadTimeout,
        (RedisLogger.provisionDefaults rl).WriteTimeout,
        (RedisLogger.provisionDefaults rl).MaxRetries⟩ := by
  rw [RedisLogger.provisionDefaults_eq]
  exact ⟨rfl, rfl, rfl, rfl, rfl, rfl, rfl, rfl, rfl, rfl⟩

/-- Claim C4 counterexample: with body capture enabled, a failure while
reading the request body during log-entry construction is returned as the
handler's error, so a problem in the logging path does fail the request. -/
theorem RedisLogger.serveHTTP_build_failure_returns_error :
    (RedisLogger.serveHTTP true ⟨none, .error ("read failed"), .ok ("entry"), none⟩).ret
      ≠ none := by
  simp [RedisLogger.serveHTTP]

/-- Claim C4 amended: an LPUSH failure is logged and otherwise ignored and
never fails the request; provided the body read and the JSON marshal
succeed, the handler returns no error whatever the push outcome. -/
theorem RedisLogger.serveHTTP_push_failure_ignored (withBody : Bool) (i : ServeInputs)
    (hnext : i.nextErr = none)
    (hbody : ∀ e, i.bodyRes ≠ .error e)
    (hmarshal : ∀ e, i.marshalRes ≠ .error e) :
    (RedisLogger.serveHTTP withBody i).ret = none ∧
    (RedisLogger.serveHTTP withBody i).pushed = true ∧
    (i.lpushErr ≠ none → (RedisLogger.serveHTTP withBody i).loggedPushError = true) := by
  rcases hb : i.bodyRes with eb | vb
  · exact absurd hb (hbody eb)
  · rcases hm : i.marshalRes with em | vm
    · exact absurd hm (hmarshal em)
    · rcases hp : i.lpushErr with _ | ep
      · cases withBody <;> simp [RedisLogger.serveHTTP, serveAfterBody, hnext, hb, hm, hp]
      · cases withBody <;> simp [RedisLogger.serveHTTP, serveAfterBody, hnext, hb, hm, hp]

/-- Witness for the amended C4 at a concrete request whose push fails. -/
theorem RedisLogger.serveHTTP_push_failure_ignored_witness :
    (RedisLogger.serveHTTP true ⟨none, .ok [1], .ok ("entry"), some ("conn refused")⟩).ret
        = none ∧
    (RedisLogger.serveHTTP true ⟨none, .ok [1], .ok ("entry"), some ("conn refused")⟩).pushed
        = true ∧
    ((⟨none, .ok [1], .ok ("entry"), some ("conn refused")⟩ : ServeInputs).lpushErr ≠ none →
      (RedisLogger.serveHTTP true
          ⟨none, .ok [1], .ok ("entry"), some ("conn refused")⟩).loggedPushError = true) :=
  RedisLogger.serveHTTP_push_failure_ignored true _ rfl
    (by intro e h; simp at h) (by intro e h; simp at h)

/-- Claim C5: the code reads the TLS connection-state fields without a nil
check, so building the log record for a request served without TLS faults
with a nil-pointer dereference instead of treating the TLS metadata as
optional. -/
theorem buildRequestEntry_non_tls_faults :
    buildRequestEntry
        ⟨"203.0.113.7:51234", "", "", "HTTP/1.1", "GET", "example.com", "/", [], 0, none⟩
      = .error ("runtime error: invalid memory address or nil pointer dereference") := rfl
